import Mathlib

/-!
Shallow embedding of the startup orchestration logic of `start_services.py`
(the deployment orchestrator of the local-ai-packaged repository).

Python strings are modelled as lists of characters, files as lists of
lines, dictionaries as association lists updated in place, and the
external effects (subprocess outcomes, HTTP probe answers, generator
scripts) as explicit oracle parameters, so every definition is executable.
-/

namespace StartServices

abbrev PyStr := List Char

/-- Python dict lookup (keys are unique in dicts built by `dictInsert`). -/
def dictLookup {α β : Type} [DecidableEq α] : List (α × β) → α → Option β
  | [], _ => none
  | (k', v) :: rest, k => if k' = k then some v else dictLookup rest k

/-- Python `d[k] = v`: replace the value at an existing key, else append. -/
def dictInsert {α β : Type} [DecidableEq α] (m : List (α × β)) (k : α) (v : β) :
    List (α × β) :=
  match m with
  | [] => [(k, v)]
  | (k', v') :: rest => if k' = k then (k', v) :: rest else (k', v') :: dictInsert rest k v

/-- The characters removed by Python `str.strip()`. -/
def isPySpace (c : Char) : Bool :=
  c = ' ' || c = '\t' || c = '\n' || c = '\r' || c = '\x0b' || c = '\x0c'

/-- Python `str.strip()` on a string modelled as a character list. -/
def pyStrip (s : PyStr) : PyStr :=
  ((s.dropWhile isPySpace).reverse.dropWhile isPySpace).reverse

/-- Python `line.split("=", 1)`: split at the first equals sign, if any;
`none` exactly when the line contains no equals sign. -/
def splitFirstEq : PyStr → Option (PyStr × PyStr)
  | [] => none
  | c :: rest =>
    if c = '=' then some ([], rest)
    else
      match splitFirstEq rest with
      | none => none
      | some (k, v) => some (c :: k, v)

/-- One iteration of the line loop of `read_env` (start_services.py:250-261):
strip the line, skip it when blank, a comment, or without an equals sign,
otherwise split at the first equals sign and store the pair. -/
def read_env_line (vals : List (PyStr × PyStr)) (rawLine : PyStr) :
    List (PyStr × PyStr) :=
  let line := pyStrip rawLine
  if line = [] then vals
  else if line.head? = some '#' then vals
  else
    match splitFirstEq line with
    | none => vals
    | some (k, v) => dictInsert vals k v

/-- `read_env` of start_services.py: parse a KEY=VALUE file (given as its
list of lines) into a dict. -/
def read_env (ls : List PyStr) : List (PyStr × PyStr) :=
  ls.foldl read_env_line []

theorem dictLookup_dictInsert {α β : Type} [DecidableEq α]
    (m : List (α × β)) (k' k : α) (v : β) :
    dictLookup (dictInsert m k' v) k = if k' = k then some v else dictLookup m k := by
  induction m with
  | nil => simp [dictInsert, dictLookup]
  | cons hd tl ih =>
    obtain ⟨k₀, v₀⟩ := hd
    by_cases h : k₀ = k'
    · subst h
      simp only [dictInsert, if_pos rfl, dictLookup]
      by_cases hk : k₀ = k <;> simp [hk]
    · simp only [dictInsert, if_neg h, dictLookup]
      by_cases hk : k₀ = k
      · subst hk
        have : ¬ k' = k₀ := fun hh => h hh.symm
        simp [this]
      · simp [hk, ih]

theorem dictLookup_append {α β : Type} [DecidableEq α]
    (a b : List (α × β)) (k : α) :
    dictLookup (a ++ b) k =
      match dictLookup a k with
      | some v => some v
      | none => dictLookup b k := by
  induction a with
  | nil => simp [dictLookup]
  | cons hd tl ih =>
    obtain ⟨k₀, v₀⟩ := hd
    by_cases h : k₀ = k <;> simp [dictLookup, h, ih]

theorem splitFirstEq_append (k v : PyStr) (h : '=' ∉ k) :
    splitFirstEq (k ++ '=' :: v) = some (k, v) := by
  induction k with
  | nil => simp [splitFirstEq]
  | cons c rest ih =>
    have hc : ¬ c = '=' := by
      intro hc; exact h (by simp [hc])
    have hr : '=' ∉ rest := fun hm => h (List.mem_cons_of_mem _ hm)
    simp [splitFirstEq, hc, ih hr]

theorem splitFirstEq_eq_none (l : PyStr) (h : '=' ∉ l) :
    splitFirstEq l = none := by
  induction l with
  | nil => rfl
  | cons c rest ih =>
    have hc : ¬ c = '=' := by
      intro hc; exact h (by simp [hc])
    have hr : '=' ∉ rest := fun hm => h (List.mem_cons_of_mem _ hm)
    simp [splitFirstEq, hc, ih hr]

theorem mem_of_mem_pyStrip {c : Char} {l : PyStr} (h : c ∈ pyStrip l) : c ∈ l := by
  unfold pyStrip at h
  have h1 : c ∈ (l.dropWhile isPySpace).reverse.dropWhile isPySpace :=
    List.mem_reverse.mp h
  have h2 : c ∈ (l.dropWhile isPySpace).reverse :=
    (List.dropWhile_sublist _).mem h1
  have h3 : c ∈ l.dropWhile isPySpace := List.mem_reverse.mp h2
  exact (List.dropWhile_sublist _).mem h3

theorem read_env_append (ls : List PyStr) (l : PyStr) :
    read_env (ls ++ [l]) = read_env_line (read_env ls) l := by
  simp [read_env, List.foldl_append]

theorem read_env_line_good (vals : List (PyStr × PyStr)) (k v : PyStr)
    (hk : k ≠ []) (hhash : k.head? ≠ some '#') (heq : '=' ∉ k)
    (hstrip : pyStrip (k ++ '=' :: v) = k ++ '=' :: v) :
    read_env_line vals (k ++ '=' :: v) = dictInsert vals k v := by
  have hne : k ++ '=' :: v ≠ [] := by cases k <;> simp
  have hhead : (k ++ '=' :: v).head? ≠ some '#' := by
    cases k with
    | nil => simp at hk
    | cons c cs => simpa using hhash
  simp [read_env_line, hstrip, hne, hhead, hhash, splitFirstEq_append k v heq]

/-- One step of the scan of `find_next_free_port` (start_services.py:550-554),
with explicit fuel standing in for the unbounded while loop. -/
def findPortAux (used : List Nat) : Nat → Nat → Nat
  | 0, p => p
  | fuel + 1, p => if p ∈ used ∨ p < 1024 then findPortAux used fuel (p + 1) else p

/-- A bound that is above 1023 and above every used port, so the scan never
needs to pass it. -/
def portBound (used : List Nat) : Nat :=
  used.foldr (fun a b => max (a + 1) b) 1024

/-- `find_next_free_port` of start_services.py: scan upwards from `start`,
skipping ports in `used` and privileged ports below 1024.  The fuel reaches
the first admissible port, so the result matches the source's while loop. -/
def find_next_free_port (start : Nat) (used : List Nat) : Nat :=
  findPortAux used (max start (portBound used) - start) start

/-- The conflict-remapping loop of `start_local_ai` (start_services.py:563-569):
for each declared loopback (host, container) pair whose host port is in the
evolving listening set, allocate a fresh port and add it to the set. -/
def resolvePass : List (Nat × Nat) → List Nat → List (Nat × Nat × Nat)
  | [], _ => []
  | (h, c) :: rest, listening =>
    if h ∈ listening then
      let n := find_next_free_port (h + 1) listening
      (h, c, n) :: resolvePass rest (listening ++ [n])
    else
      resolvePass rest listening

theorem le_portBound (used : List Nat) : 1024 ≤ portBound used := by
  induction used with
  | nil => exact le_refl _
  | cons a tl ih => exact le_trans ih (le_max_right _ _)

theorem mem_lt_portBound (used : List Nat) (a : Nat) (h : a ∈ used) :
    a + 1 ≤ portBound used := by
  induction used with
  | nil => cases h
  | cons b tl ih =>
    rcases List.mem_cons.mp h with hb | ht
    · subst hb; exact le_max_left _ _
    · exact le_trans (ih ht) (le_max_right _ _)

theorem findPortAux_spec (used : List Nat) :
    ∀ fuel p, (∃ g, p ≤ g ∧ g ≤ p + fuel ∧ g ∉ used ∧ 1024 ≤ g) →
      findPortAux used fuel p ∉ used ∧ 1024 ≤ findPortAux used fuel p ∧
      p ≤ findPortAux used fuel p ∧
      ∀ q, p ≤ q → q < findPortAux used fuel p → q ∈ used ∨ q < 1024 := by
  intro fuel
  induction fuel with
  | zero =>
    intro p hg
    obtain ⟨g, h1, h2, h3, h4⟩ := hg
    have hgp : g = p := by omega
    subst hgp
    refine ⟨h3, h4, le_refl _, ?_⟩
    intro q hq1 hq2
    simp only [findPortAux] at hq2
    omega
  | succ n ih =>
    intro p hg
    obtain ⟨g, h1, h2, h3, h4⟩ := hg
    by_cases hbad : p ∈ used ∨ p < 1024
    · have hgp : g ≠ p := by
        intro hgp; subst hgp
        rcases hbad with hb | hb
        · exact h3 hb
        · omega
      have hg' : ∃ g, p + 1 ≤ g ∧ g ≤ (p + 1) + n ∧ g ∉ used ∧ 1024 ≤ g :=
        ⟨g, by omega, by omega, h3, h4⟩
      have hrec := ih (p + 1) hg'
      have hfp : findPortAux used (n + 1) p = findPortAux used n (p + 1) := by
        simp [findPortAux, hbad]
      rw [hfp]
      refine ⟨hrec.1, hrec.2.1, by omega, ?_⟩
      intro q hq1 hq2
      by_cases hqp : q = p
      · subst hqp; exact hbad
      · exact hrec.2.2.2 q (by omega) hq2
    · have hfp : findPortAux used (n + 1) p = p := by
        simp [findPortAux, hbad]
      rw [hfp]
      push_neg at hbad
      refine ⟨hbad.1, by omega, le_refl _, ?_⟩
      intro q hq1 hq2
      omega

theorem fnfp_spec (start : Nat) (used : List Nat) :
    find_next_free_port start used ∉ used ∧
    1024 ≤ find_next_free_port start used ∧
    start ≤ find_next_free_port start used ∧
    ∀ q, start ≤ q → q < find_next_free_port start used → q ∈ used ∨ q < 1024 := by
  have hM : start ≤ max start (portBound used) := le_max_left _ _
  have hg : ∃ g, start ≤ g ∧ g ≤ start + (max start (portBound used) - start) ∧
      g ∉ used ∧ 1024 ≤ g := by
    refine ⟨max start (portBound used), hM, by omega, ?_, ?_⟩
    · intro hmem
      have h1 := mem_lt_portBound used _ hmem
      have h2 : portBound used ≤ max start (portBound used) := le_max_right _ _
      omega
    · exact le_trans (le_portBound used) (le_max_right _ _)
  exact findPortAux_spec used _ start hg

theorem resolvePass_all_ge (pairs : List (Nat × Nat)) :
    ∀ L, ∀ e ∈ resolvePass pairs L, 1024 ≤ e.2.2 := by
  induction pairs with
  | nil => intro L e he; simp [resolvePass] at he
  | cons hd tl ih =>
    intro L e he
    obtain ⟨hp, cp⟩ := hd
    by_cases hmem : hp ∈ L
    · simp only [resolvePass, if_pos hmem] at he
      rcases List.mem_cons.mp he with h1 | h2
      · subst h1
        exact (fnfp_spec (hp + 1) L).2.1
      · exact ih _ e h2
    · simp only [resolvePass, if_neg hmem] at he
      exact ih _ e he

theorem resolvePass_getD :
    ∀ (pairs : List (Nat × Nat)) (L : List Nat) (i : Nat),
      i < (resolvePass pairs L).length →
      ((resolvePass pairs L).getD i (0, 0, 0)).2.2 =
        find_next_free_port (((resolvePass pairs L).getD i (0, 0, 0)).1 + 1)
          (L ++ ((resolvePass pairs L).take i).map (fun e => e.2.2)) := by
  intro pairs
  induction pairs with
  | nil => intro L i h; simp [resolvePass] at h
  | cons hd tl ih =>
    intro L i h
    obtain ⟨hp, cp⟩ := hd
    by_cases hmem : hp ∈ L
    · have hr : resolvePass ((hp, cp) :: tl) L =
          (hp, cp, find_next_free_port (hp + 1) L) ::
            resolvePass tl (L ++ [find_next_free_port (hp + 1) L]) := by
        simp [resolvePass, hmem]
      rw [hr] at h ⊢
      cases i with
      | zero => simp
      | succ j =>
        have h' : j < (resolvePass tl (L ++ [find_next_free_port (hp + 1) L])).length := by
          simpa using h
        have hrec := ih (L ++ [find_next_free_port (hp + 1) L]) j h'
        simpa [List.append_assoc] using hrec
    · have hr : resolvePass ((hp, cp) :: tl) L = resolvePass tl L := by
        simp [resolvePass, hmem]
      rw [hr] at h ⊢
      exact ih L i h

/-- Result record of a completed subprocess (`subprocess.CompletedProcess`). -/
structure CompletedProcess where
  returncode : Int
  stdout : String
  stderr : String
  deriving DecidableEq, Repr

/-- The data carried by `CommandExecutionError` (start_services.py:87-96). -/
structure CommandExecutionError where
  message : String
  exit_code : Int
  stdout : String
  stderr : String
  deriving DecidableEq, Repr

/-- Behaviour of the underlying process invocation, supplied as an oracle:
it runs to completion, exceeds the timeout, or the executable is absent
(`estr` is the stringified FileNotFoundError). -/
inductive ExecOutcome where
  | completed (r : CompletedProcess)
  | timedOut
  | notFound (estr : String)
  deriving DecidableEq, Repr

/-- What a call to `run_command` does for its caller: return a process
record, return Python `None`, or raise `CommandExecutionError`. -/
inductive RunResult where
  | ok (r : CompletedProcess)
  | retNone
  | raised (e : CommandExecutionError)
  deriving DecidableEq, Repr

def joinSpace (cmd : List String) : String := String.intercalate " " cmd

/-- `run_command` (start_services.py:22-85).  `subprocess.run` is called with
`check = not ignore_errors`, so a non-zero exit with `ignore_errors = False`
raises CalledProcessError, which the final generic handler converts to a
`CommandExecutionError` with exit code -1; a timeout raises TimeoutExpired,
handled with exit code -1 and stderr "Timeout" when not ignoring errors and
with a bare `return None` when ignoring them. -/
def run_command (cmd : List String) (ignore_errors : Bool) (timeout : Nat)
    (outcome : ExecOutcome) : RunResult :=
  match outcome with
  | ExecOutcome.completed r =>
    if r.returncode ≠ 0 ∧ ignore_errors = false then
      RunResult.raised
        { message := "Unexpected error running command: Command returned non-zero exit status "
            ++ toString r.returncode ++ "."
          exit_code := -1
          stdout := ""
          stderr := "Command returned non-zero exit status " ++ toString r.returncode ++ "." }
    else RunResult.ok r
  | ExecOutcome.timedOut =>
    if ignore_errors then RunResult.retNone
    else
      RunResult.raised
        { message := "Command timed out after " ++ toString timeout ++ " seconds: "
            ++ joinSpace cmd
          exit_code := -1
          stdout := ""
          stderr := "Timeout" }
  | ExecOutcome.notFound estr =>
    if ignore_errors then RunResult.retNone
    else
      RunResult.raised
        { message := "Command not found: " ++ cmd.headD ""
            ++ ". Please ensure it is installed and in your PATH."
          exit_code := -1
          stdout := ""
          stderr := estr }

abbrev EnvMap := List (String × String)

/-- Python `env.update(o)`: fold the override pairs into the dict. -/
def envUpdate (e : EnvMap) (o : EnvMap) : EnvMap :=
  o.foldl (fun acc kv => dictInsert acc kv.1 kv.2) e

/-- The environment handling of `run_command` (start_services.py:38-41):
`env = os.environ.copy()` followed by `env.update(env_override)` when an
override is given.  The result is the pair of the environment passed to the
child process and the ambient environment as observable after the call. -/
def run_command_env (ambient : EnvMap) (env_override : Option EnvMap) :
    EnvMap × EnvMap :=
  let env := ambient
  let env2 :=
    match env_override with
    | some o => envUpdate env o
    | none => env
  (env2, ambient)

theorem envUpdate_lookup (o : EnvMap) :
    ∀ (e : EnvMap) (k : String),
      dictLookup (envUpdate e o) k =
        match dictLookup o.reverse k with
        | some v => some v
        | none => dictLookup e k := by
  induction o with
  | nil => intro e k; simp [envUpdate, dictLookup]
  | cons kv o ih =>
    intro e k
    have h1 : envUpdate e (kv :: o) = envUpdate (dictInsert e kv.1 kv.2) o := rfl
    rw [h1, ih (dictInsert e kv.1 kv.2) k, List.reverse_cons, dictLookup_append]
    cases hr : dictLookup o.reverse k with
    | some v => rfl
    | none =>
      simp only [dictLookup, dictLookup_dictInsert]
      by_cases hk : kv.1 = k <;> simp [hk]

/-- Readiness test applied to a probe answer, from `wait_for_supabase`
(start_services.py:371-374): Python `if code and code < 600`, where `code`
is `None` when the HTTP request raised. -/
def http_code_ready (code : Option Nat) : Bool :=
  match code with
  | none => false
  | some c => decide (c ≠ 0) && decide (c < 600)

/-- The readiness targets of `wait_for_supabase` (start_services.py:362-365). -/
def supabase_targets : List (String × String) :=
  [("auth", "http://localhost:9999/health"), ("rest", "http://localhost:8000/rest/v1/")]

/-- One pass of the polling loop body (start_services.py:368-374): probe every
target not yet ready and record the ones whose probe answered acceptably. -/
def pollOnce (probe : Nat → String → Option Nat) (i : Nat) (ready : List String) :
    List String :=
  supabase_targets.foldl
    (fun r t =>
      if t.1 ∈ r then r
      else if http_code_ready (probe i t.2) then r ++ [t.1] else r)
    ready

/-- The polling loop of `wait_for_supabase` (start_services.py:367-380), with
fuel for the remaining iterations of the timed while loop.  Returns the
Python return value, the internal `ready` set at exit, and the message
printed at exit. -/
def waitAux (probe : Nat → String → Option Nat) :
    Nat → Nat → List String → Bool × List String × String
  | 0, _, ready => (false, ready, "Timeout waiting for Supabase; proceeding anyway.")
  | fuel + 1, i, ready =>
    let r := pollOnce probe i ready
    if r.length = supabase_targets.length then
      (true, r, "Supabase core endpoints responding.")
    else waitAux probe fuel (i + 1) r

/-- `wait_for_supabase` of start_services.py: the caller only receives the
boolean. -/
def wait_for_supabase (probe : Nat → String → Option Nat) (fuel : Nat) : Bool :=
  (waitAux probe fuel 0 []).1

theorem waitAux_timeout_msg (probe : Nat → String → Option Nat) :
    ∀ fuel i ready, (waitAux probe fuel i ready).1 = false →
      (waitAux probe fuel i ready).2.2 =
        "Timeout waiting for Supabase; proceeding anyway." := by
  intro fuel
  induction fuel with
  | zero => intro i ready _; rfl
  | succ n ih =>
    intro i ready h
    by_cases hc : (pollOnce probe i ready).length = supabase_targets.length
    · simp [waitAux, hc] at h
    · simp only [waitAux, if_neg hc] at h ⊢
      exact ih (i + 1) _ h

/-- The overall outcome of one launch attempt. -/
inductive LaunchOutcome where
  | Done
  | Failed
  deriving DecidableEq, Repr

/-- Oracle outcomes of the external phases of `main` (start_services.py:824-858):
a `false` boolean stands for the phase raising an unrecovered exception. -/
structure MainOutcomes where
  cloneOk : Bool
  prepareOk : Bool
  stopOk : Bool
  neo4jStartOk : Bool
  neo4jWaitResult : Bool
  supabaseStartOk : Bool
  probe : Nat → String → Option Nat
  waitFuel : Nat
  localAiOk : Bool

/-- The phase sequence of `main` for the default arguments (profile cpu,
environment private, Neo4j not skipped, no preflight): an unrecovered
command failure propagates and the run fails, and the return values of both
readiness waits are discarded, exactly as in the source. -/
def main_run (o : MainOutcomes) : LaunchOutcome :=
  if o.cloneOk = false then LaunchOutcome.Failed
  else if o.prepareOk = false then LaunchOutcome.Failed
  else if o.stopOk = false then LaunchOutcome.Failed
  else if o.neo4jStartOk = false then LaunchOutcome.Failed
  else
    let _waitNeo := o.neo4jWaitResult
    if o.supabaseStartOk = false then LaunchOutcome.Failed
    else
      let _waitSupabase := wait_for_supabase o.probe o.waitFuel
      if o.localAiOk = false then LaunchOutcome.Failed
      else LaunchOutcome.Done

abbrev EnvFile := List PyStr

/-- `read_env` applied to a path that may not exist (start_services.py:252-253
returns an empty dict for a missing file). -/
def read_env_opt : Option EnvFile → List (PyStr × PyStr)
  | none => []
  | some f => read_env f

/-- Python truthiness of `env_vals.get(k)`: false when the key is absent or
its value is the empty string. -/
def envTruthy (vals : List (PyStr × PyStr)) (k : PyStr) : Bool :=
  match dictLookup vals k with
  | none => false
  | some v => !v.isEmpty

/-- The required keys of `prepare_supabase_env` (start_services.py:263). -/
def required_keys : List PyStr :=
  ["POSTGRES_HOST".toList, "POSTGRES_DB".toList, "POSTGRES_PORT".toList,
   "NEO4J_AUTH".toList, "DOCKER_SOCKET_LOCATION".toList]

/-- `[k for k in required if not env_vals.get(k)]` (start_services.py:265). -/
def missingOf (root : Option EnvFile) : List PyStr :=
  required_keys.filter (fun k => !envTruthy (read_env_opt root) k)

/-- Filesystem state seen by the Environment Materializer: the root `.env`,
the shadow copy `supabase/docker/.env`, and how many generator processes
have been invoked. -/
structure EnvState where
  root : Option EnvFile
  shadow : Option EnvFile
  genCount : Nat
  deriving DecidableEq, Repr

/-- The generator scripts under `scripts/`, treated as external processes:
whether each exists and what each leaves behind when invoked. -/
structure GenScripts where
  primaryExists : Bool
  fallbackExists : Bool
  primaryEffect : Option EnvFile → Option EnvFile
  fallbackOutput : EnvFile

/-- Invoke `scripts/gen_all_in_one_env.py` (start_services.py:227-235). -/
def invokePrimary (g : GenScripts) (s : EnvState) : EnvState :=
  { s with root := g.primaryEffect s.root, genCount := s.genCount + 1 }

/-- Invoke `scripts/generate_env.py` and write its stdout to the root file
(start_services.py:236-244 and 274-283). -/
def invokeFallback (g : GenScripts) (s : EnvState) : EnvState :=
  { s with root := some g.fallbackOutput, genCount := s.genCount + 1 }

/-- `generate_env_if_missing` (start_services.py:224-244): run the primary
generator when its script exists; if the root file is still absent and the
fallback script exists, run the fallback. -/
def generate_env_if_missing (g : GenScripts) (s : EnvState) : EnvState :=
  let s1 := if g.primaryExists then invokePrimary g s else s
  if s1.root.isNone ∧ g.fallbackExists then invokeFallback g s1 else s1

/-- The generation phase of `prepare_supabase_env` (start_services.py:246-288):
generate when the root file is absent, regenerate when required keys are
missing or empty, then try the fallback once more. -/
def prepare_body (g : GenScripts) (s : EnvState) : EnvState :=
  let s1 := if s.root.isNone then generate_env_if_missing g s else s
  if missingOf s1.root ≠ [] then
    let sa := generate_env_if_missing g s1
    if missingOf sa.root ≠ [] ∧ g.fallbackExists then invokeFallback g sa else sa
  else s1

/-- `prepare_supabase_env` (start_services.py:214-298): after the generation
phase, unconditionally copy the root file byte-for-byte to the shadow path
whenever a root file exists. -/
def prepare_supabase_env (g : GenScripts) (s : EnvState) : EnvState :=
  let s2 := prepare_body g s
  if s2.root.isSome then { s2 with shadow := s2.root } else s2

/-- Filesystem and process events of the overlay handling in `start_local_ai`
(start_services.py:575-645). -/
inductive OverlayEv where
  | writeTemp
  | runCompose (withOverlay : Bool) (ok : Bool)
  | removeTemp
  deriving DecidableEq, Repr

/-- The overlay lifecycle of `start_local_ai`: a temporary override file is
written only when the resolution pass found remaps, the compose command
includes the overlay exactly when it was written, and the `finally` block
removes the file (when it exists) on the success path and on the raising
path alike.  Returns the event trace and whether the call raises. -/
def start_local_ai_trace (pairs : List (Nat × Nat)) (listening : List Nat)
    (dockerOk : Bool) : List OverlayEv × Bool :=
  let remap := resolvePass pairs listening
  let hasTemp := !remap.isEmpty
  let pre := if hasTemp then [OverlayEv.writeTemp] else []
  let cleanup := if hasTemp then [OverlayEv.removeTemp] else []
  if dockerOk then (pre ++ [OverlayEv.runCompose hasTemp true] ++ cleanup, false)
  else (pre ++ [OverlayEv.runCompose hasTemp false] ++ cleanup, true)

/-- Whether the temporary overlay file exists after a trace of events. -/
def tempExistsAfter (evs : List OverlayEv) : Bool :=
  evs.foldl
    (fun b e =>
      match e with
      | OverlayEv.writeTemp => true
      | OverlayEv.removeTemp => false
      | OverlayEv.runCompose _ _ => b)
    false

/-- C4 counterexample: the claim says the value is taken verbatim after the
first equals sign, preserving trailing whitespace inside the value; but
`read_env` strips the whole line first, so the file line "A=b " parses to
the value "b", not "b ". -/
theorem claim4_counterexample :
    read_env ["A=b ".toList] = [("A".toList, "b".toList)] ∧
    read_env ["A=b ".toList] ≠ [("A".toList, "b ".toList)] := by
  constructor
  · decide
  · decide

/-- C4 amended: for a line `k=v` that is unchanged by stripping (no leading
whitespace before the key and no trailing whitespace after the value), with
a nonempty key that does not start with a comment mark and contains no
equals sign, `read_env` recovers the key and the verbatim value after the
first equals sign, so values containing further equals signs or leading
inner whitespace round-trip exactly. -/
theorem claim4_amended (k v : PyStr) (hk : k ≠ []) (hhash : k.head? ≠ some '#')
    (heq : '=' ∉ k) (hstrip : pyStrip (k ++ '=' :: v) = k ++ '=' :: v) :
    read_env [k ++ '=' :: v] = [(k, v)] := by
  have h1 : read_env [k ++ '=' :: v] = read_env_line [] (k ++ '=' :: v) := rfl
  rw [h1, read_env_line_good [] k v hk hhash heq hstrip]
  rfl

theorem claim4_amended_witness :
    read_env ["KEY".toList ++ '=' :: " x=y".toList] = [("KEY".toList, " x=y".toList)] :=
  claim4_amended "KEY".toList " x=y".toList (by decide) (by decide) (by decide) (by decide)

/-- C10: when a configuration file contains several lines with the same key,
`read_env` keeps the value of the last such line (the dict assignment
overwrites), and a line containing no equals sign is silently skipped. -/
theorem claim10_last_wins :
    (∀ (ls : List PyStr) (k v : PyStr), k ≠ [] → k.head? ≠ some '#' → '=' ∉ k →
        pyStrip (k ++ '=' :: v) = k ++ '=' :: v →
        dictLookup (read_env (ls ++ [k ++ '=' :: v])) k = some v) ∧
    (∀ (ls : List PyStr) (l : PyStr), '=' ∉ l → read_env (ls ++ [l]) = read_env ls) := by
  constructor
  · intro ls k v hk hhash heq hstrip
    rw [read_env_append, read_env_line_good (read_env ls) k v hk hhash heq hstrip,
      dictLookup_dictInsert]
    simp
  · intro ls l hne
    rw [read_env_append]
    unfold read_env_line
    have hnes : '=' ∉ pyStrip l := fun hm => hne (mem_of_mem_pyStrip hm)
    by_cases h1 : pyStrip l = []
    · simp [h1]
    · by_cases h2 : (pyStrip l).head? = some '#'
      · simp [h1, h2]
      · simp [h1, h2, splitFirstEq_eq_none _ hnes]

theorem claim10_last_wins_witness :
    dictLookup (read_env (["K=1".toList] ++ ["K".toList ++ '=' :: "2".toList]))
        "K".toList = some "2".toList ∧
    read_env (["K=1".toList] ++ ["no equals here".toList]) = read_env ["K=1".toList] :=
  ⟨claim10_last_wins.1 ["K=1".toList] "K".toList "2".toList
      (by decide) (by decide) (by decide) (by decide),
   claim10_last_wins.2 ["K=1".toList] "no equals here".toList (by decide)⟩

/-- C3 counterexample: with `ignore_errors = True`, a timeout makes
`run_command` return Python `None` (modelled as `RunResult.retNone`), not a
synthetic `CompletedProcess` carrying exit code -1 and stderr "Timeout" as
the claim states. -/
theorem claim3_counterexample :
    run_command ["docker", "compose"] true 1 ExecOutcome.timedOut = RunResult.retNone ∧
    RunResult.retNone ≠
      RunResult.ok { returncode := -1, stdout := "", stderr := "Timeout" } := by
  constructor
  · rfl
  · intro h
    cases h

/-- C3 amended: on a timeout, `run_command` with `ignore_errors = True` does
not raise and returns `None` (no synthetic result object); with
`ignore_errors = False` it raises a `CommandExecutionError` whose exit code
is -1 and whose stderr is "Timeout". -/
theorem claim3_amended (cmd : List String) (t : Nat) :
    run_command cmd true t ExecOutcome.timedOut = RunResult.retNone ∧
    ∃ e, run_command cmd false t ExecOutcome.timedOut = RunResult.raised e ∧
      e.exit_code = -1 ∧ e.stderr = "Timeout" := by
  exact ⟨rfl, ⟨_, rfl, rfl, rfl⟩⟩

/-- C8: `run_command` merges the overrides onto a copy of the ambient
environment — the merged map is handed to the child, the ambient map
observable after the call is the one before it, and a key reads as the last
override occurrence when overridden and as the ambient value otherwise. -/
theorem claim8_env_frame (ambient : EnvMap) (o : EnvMap) (k : String) :
    (run_command_env ambient (some o)).2 = ambient ∧
    (run_command_env ambient none).2 = ambient ∧
    (run_command_env ambient none).1 = ambient ∧
    dictLookup (run_command_env ambient (some o)).1 k =
      (match dictLookup o.reverse k with
       | some v => some v
       | none => dictLookup ambient k) := by
  refine ⟨rfl, rfl, rfl, ?_⟩
  exact envUpdate_lookup o ambient k

/-- C1: for every valid HTTP status (at least 100, as the transport
guarantees), the readiness test of the waiter accepts exactly the codes
strictly below 600 — so 4xx and 5xx answers count as ready — a probe with
no response is never ready, and a target enters the waiter's ready set
exactly when its probe answer passes that test. -/
theorem claim1_http_readiness (c : Nat) (probe : Nat → String → Option Nat)
    (i : Nat) (hc : 100 ≤ c) :
    http_code_ready none = false ∧
    http_code_ready (some c) = decide (c < 600) ∧
    ("auth" ∈ pollOnce probe i [] ↔
      http_code_ready (probe i "http://localhost:9999/health") = true) := by
  refine ⟨rfl, ?_, ?_⟩
  · have hz : c ≠ 0 := by omega
    simp [http_code_ready, hz]
  · simp only [pollOnce, supabase_targets, List.foldl]
    cases hA : http_code_ready (probe i "http://localhost:9999/health") <;>
      cases hB : http_code_ready (probe i "http://localhost:8000/rest/v1/") <;>
        simp [hA, hB]

def probe503 : Nat → String → Option Nat := fun _ _ => some 503

theorem claim1_http_readiness_witness :
    http_code_ready none = false ∧
    http_code_ready (some 404) = decide (404 < 600) ∧
    ("auth" ∈ pollOnce probe503 0 [] ↔
      http_code_ready (probe503 0 "http://localhost:9999/health") = true) :=
  claim1_http_readiness 404 probe503 0 (by decide)

set_option maxRecDepth 100000 in
/-- C2 counterexample: for the declared loopback pair (host 80, container
8080) with listening set containing 80, the claimed rule gives the new host
port 81 (the smallest integer above 80 outside the listening set), but the
scan also skips every port below 1024 and yields 1024. -/
theorem claim2_counterexample :
    resolvePass [(80, 8080)] [80] = [(80, 8080, 1024)] ∧
    resolvePass [(80, 8080)] [80] ≠ [(80, 8080, 81)] := by
  constructor
  · decide
  · decide

/-- C2 amended: every remap produced by the resolution pass allocates the
smallest port that is at least host port + 1, at least 1024, not in the
listening set as it stood when that pair was handled (the original set plus
the ports allocated for the earlier remaps of the same pass), resolution is
deterministic, and the end-to-end scenario holds: declared (8080, 80) with
listening set containing 8080 and 8081 remaps to 8082. -/
theorem claim2_amended (pairs : List (Nat × Nat)) (L : List Nat) (i q : Nat)
    (h : i < (resolvePass pairs L).length)
    (hq1 : ((resolvePass pairs L).getD i (0, 0, 0)).1 + 1 ≤ q)
    (hq2 : q < ((resolvePass pairs L).getD i (0, 0, 0)).2.2) :
    ((resolvePass pairs L).getD i (0, 0, 0)).1 + 1 ≤
      ((resolvePass pairs L).getD i (0, 0, 0)).2.2 ∧
    1024 ≤ ((resolvePass pairs L).getD i (0, 0, 0)).2.2 ∧
    ((resolvePass pairs L).getD i (0, 0, 0)).2.2 ∉
      (L ++ ((resolvePass pairs L).take i).map (fun e => e.2.2)) ∧
    (q ∈ (L ++ ((resolvePass pairs L).take i).map (fun e => e.2.2)) ∨ q < 1024) ∧
    resolvePass pairs L = resolvePass pairs L ∧
    resolvePass [(8080, 80)] [8080, 8081] = [(8080, 80, 8082)] := by
  have hget := resolvePass_getD pairs L i h
  have hs := fnfp_spec (((resolvePass pairs L).getD i (0, 0, 0)).1 + 1)
    (L ++ ((resolvePass pairs L).take i).map (fun e => e.2.2))
  rw [← hget] at hs
  refine ⟨hs.2.2.1, hs.2.1, hs.1, ?_, rfl, by decide⟩
  exact hs.2.2.2 q hq1 hq2

theorem claim2_amended_witness :
    8080 + 1 ≤ 8082 ∧
    1024 ≤ 8082 ∧
    (8082 : Nat) ∉ ([8080, 8081] : List Nat) ∧
    ((8081 : Nat) ∈ ([8080, 8081] : List Nat) ∨ 8081 < 1024) ∧
    resolvePass [(8080, 80)] [8080, 8081] = resolvePass [(8080, 80)] [8080, 8081] ∧
    resolvePass [(8080, 80)] [8080, 8081] = [(8080, 80, 8082)] :=
  claim2_amended [(8080, 80)] [8080, 8081] 0 8081 (by decide) (by decide) (by decide)

/-- C9: the free-port scan never allocates a privileged port — the port
chosen by `find_next_free_port` is always at least 1024, and so is the new
host port of every remap produced by the resolution pass. -/
theorem claim9_unprivileged (pairs : List (Nat × Nat)) (L used : List Nat)
    (start : Nat) :
    1024 ≤ find_next_free_port start used ∧
    (resolvePass pairs L).all (fun e => decide (1024 ≤ e.2.2)) = true := by
  refine ⟨(fnfp_spec start used).2.1, ?_⟩
  rw [List.all_eq_true]
  intro e he
  simpa using resolvePass_all_ge pairs L e he

/-- C5: when the root configuration file exists and every required key is
present and non-empty, `prepare_supabase_env` invokes no generator process
and ends with the shadow path holding an exact copy of the root file; and
on any invocation whose final state has a root file, the shadow equals the
root (the copy is unconditional, last writer wins). -/
theorem claim5_materializer (g g2 : GenScripts) (s s2 : EnvState) (f : EnvFile)
    (hroot : s.root = some f) (hmiss : missingOf (some f) = []) :
    prepare_supabase_env g s =
      { root := some f, shadow := some f, genCount := s.genCount } ∧
    ((prepare_supabase_env g2 s2).root.isSome →
      (prepare_supabase_env g2 s2).shadow = (prepare_supabase_env g2 s2).root) := by
  constructor
  · obtain ⟨r, sh, n⟩ := s
    simp only at hroot
    subst hroot
    have hbody : prepare_body g ⟨some f, sh, n⟩ = ⟨some f, sh, n⟩ := by
      simp [prepare_body, hmiss]
    simp [prepare_supabase_env, hbody]
  · intro hsome
    unfold prepare_supabase_env at hsome ⊢
    by_cases h : (prepare_body g2 s2).root.isSome <;> simp [h] at hsome ⊢

def sampleEnvFile : EnvFile :=
  ["POSTGRES_HOST=db".toList, "POSTGRES_DB=postgres".toList,
   "POSTGRES_PORT=5432".toList, "NEO4J_AUTH=neo4j/secret".toList,
   "DOCKER_SOCKET_LOCATION=/var/run/docker.sock".toList]

def sampleGen : GenScripts :=
  { primaryExists := true, fallbackExists := true,
    primaryEffect := fun r => r, fallbackOutput := [] }

theorem claim5_materializer_witness :
    prepare_supabase_env sampleGen ⟨some sampleEnvFile, none, 0⟩ =
      { root := some sampleEnvFile, shadow := some sampleEnvFile, genCount := 0 } ∧
    ((prepare_supabase_env sampleGen ⟨some sampleEnvFile, none, 0⟩).root.isSome →
      (prepare_supabase_env sampleGen ⟨some sampleEnvFile, none, 0⟩).shadow =
        (prepare_supabase_env sampleGen ⟨some sampleEnvFile, none, 0⟩).root) :=
  claim5_materializer sampleGen sampleGen ⟨some sampleEnvFile, none, 0⟩
    ⟨some sampleEnvFile, none, 0⟩ sampleEnvFile rfl (by decide)

def probeNone : Nat → String → Option Nat := fun _ _ => none

def probeAuthOnly : Nat → String → Option Nat :=
  fun _ url => if url = "http://localhost:9999/health" then some 200 else none

/-- C6 counterexample: two timing-out runs whose responder sets differ (one
where only the auth target answers, one where nothing answers) return the
same bare `False`, so the waiter's return value does not carry the set of
targets that did respond, contrary to the claim. -/
theorem claim6_counterexample :
    wait_for_supabase probeAuthOnly 3 = wait_for_supabase probeNone 3 ∧
    wait_for_supabase probeAuthOnly 3 = false ∧
    (waitAux probeAuthOnly 3 0 []).2.1 ≠ (waitAux probeNone 3 0 []).2.1 := by
  refine ⟨rfl, rfl, ?_⟩
  decide

/-- C6 amended: when the readiness wait exhausts its timeout, the waiter
returns only the boolean `False` (the responders it recorded internally are
not part of the return value), prints the timeout warning, and the launch
still starts the main stack and reaches Done rather than Failed, because
`main` ignores the waiter's return value. -/
theorem claim6_amended (o : MainOutcomes)
    (hw : wait_for_supabase o.probe o.waitFuel = false)
    (h1 : o.cloneOk = true) (h2 : o.prepareOk = true) (h3 : o.stopOk = true)
    (h4 : o.neo4jStartOk = true) (h5 : o.supabaseStartOk = true)
    (h6 : o.localAiOk = true) :
    main_run o = LaunchOutcome.Done ∧
    (waitAux o.probe o.waitFuel 0 []).2.2 =
      "Timeout waiting for Supabase; proceeding anyway." := by
  constructor
  · simp [main_run, h1, h2, h3, h4, h5, h6]
  · exact waitAux_timeout_msg o.probe o.waitFuel 0 [] hw

def outcomesTimeoutWitness : MainOutcomes :=
  { cloneOk := true, prepareOk := true, stopOk := true, neo4jStartOk := true,
    neo4jWaitResult := true, supabaseStartOk := true, probe := probeNone,
    waitFuel := 2, localAiOk := true }

theorem claim6_amended_witness :
    main_run outcomesTimeoutWitness = LaunchOutcome.Done ∧
    (waitAux outcomesTimeoutWitness.probe outcomesTimeoutWitness.waitFuel 0 []).2.2 =
      "Timeout waiting for Supabase; proceeding anyway." :=
  claim6_amended outcomesTimeoutWitness (by decide) rfl rfl rfl rfl rfl rfl

/-- C7: after `start_local_ai` returns or raises, the temporary overlay file
no longer exists; the trace is exactly: write the overlay, run compose with
it, remove it — when the resolution pass found remaps — and just run
compose without any overlay when it found none; and the call raises exactly
when the compose command fails, with the cleanup having run either way. -/
theorem claim7_overlay_cleanup (pairs : List (Nat × Nat)) (listening : List Nat)
    (dockerOk : Bool) :
    tempExistsAfter (start_local_ai_trace pairs listening dockerOk).1 = false ∧
    (start_local_ai_trace pairs listening dockerOk).1 =
      (if resolvePass pairs listening = [] then [OverlayEv.runCompose false dockerOk]
       else [OverlayEv.writeTemp, OverlayEv.runCompose true dockerOk,
             OverlayEv.removeTemp]) ∧
    (start_local_ai_trace pairs listening dockerOk).2 = !dockerOk := by
  unfold start_local_ai_trace
  cases hre : resolvePass pairs listening <;> cases dockerOk <;>
    simp [hre, tempExistsAfter]

end StartServices
